import Mathlib

/-!
Shallow embedding of the Event-Hub repository's domain logic: the slug
generator, the date/time normalizers, the Event and Booking schemas with
their validation rules and pre-save hooks, and the two HTTP handlers
(`GET /events`, `GET /events/[slug]`), together with theorems settling the
behavioral claims about them.

Machine-level conventions: JavaScript strings are modelled as Lean
`String`s, restricted to the character classes the code actually tests
(ASCII word characters, ASCII whitespace, hyphens); MongoDB ObjectIds are
modelled as `Nat`; the document store is a Lean list of documents, and the
storage-level unique index on `slug` is modelled as a membership check
performed at insertion time.
-/

namespace EventHub

/-- Characters matched by the JavaScript `\s` class and removed by
`String.prototype.trim` (ASCII fragment): space, tab, line feed, carriage
return, vertical tab, form feed. -/
def isJsWhitespace (c : Char) : Bool :=
  c.toNat = 32 || c.toNat = 9 || c.toNat = 10 || c.toNat = 13 ||
    c.toNat = 11 || c.toNat = 12

/-- Drop leading and trailing whitespace from a character list. -/
def trimData (l : List Char) : List Char :=
  ((l.dropWhile isJsWhitespace).reverse.dropWhile isJsWhitespace).reverse

/-- JavaScript `String.prototype.trim`: drop leading and trailing whitespace. -/
def jsTrim (s : String) : String :=
  String.mk (trimData s.data)

/-- JavaScript `String.prototype.toLowerCase` on the ASCII fragment:
lowercase each character. -/
def jsToLower (s : String) : String :=
  String.mk (s.data.map Char.toLower)

/-- Characters matched by the JavaScript `\w` class: ASCII letters, digits,
and underscore. -/
def isWordChar (c : Char) : Bool :=
  c.isAlphanum || c = '_'

/-- Characters matched by the `[\s_-]` class in `generateSlug`'s collapsing
step: whitespace, underscore, hyphen. -/
def isCollapseChar (c : Char) : Bool :=
  isJsWhitespace c || c = '_' || c = '-'

/-- Characters kept by `generateSlug`'s `.replace(/[^\w\s-]/g, '')` step:
word characters, whitespace, and hyphens. -/
def isSlugKeepChar (c : Char) : Bool :=
  isWordChar c || isJsWhitespace c || c = '-'

/-- The `.replace(/[\s_-]+/g, '-')` step: each maximal run of
whitespace/underscore/hyphen characters becomes a single hyphen.  The flag
records whether we are currently inside such a run. -/
def collapseRuns : Bool → List Char → List Char
  | _, [] => []
  | inRun, c :: cs =>
    if isCollapseChar c then
      if inRun then collapseRuns true cs else '-' :: collapseRuns true cs
    else c :: collapseRuns false cs

/-- The leading half of the `.replace(/^-+|-+$/g, '')` step. -/
def stripLead (l : List Char) : List Char :=
  l.dropWhile (fun c => c = '-')

/-- The trailing half of the `.replace(/^-+|-+$/g, '')` step. -/
def stripTrail (l : List Char) : List Char :=
  (l.reverse.dropWhile (fun c => c = '-')).reverse

/-- The `.replace(/^-+|-+$/g, '')` step: remove leading and trailing hyphens. -/
def stripHyphens (l : List Char) : List Char :=
  stripTrail (stripLead l)

/-- `generateSlug` from `event.model.ts`: lowercase, trim, remove every
character that is not a word character, whitespace, or hyphen, collapse
each run of whitespace/underscore/hyphen into a single hyphen, and strip
leading and trailing hyphens. -/
def generateSlug (text : String) : String :=
  String.mk (stripHyphens (collapseRuns false
    (((jsTrim (jsToLower text)).data).filter isSlugKeepChar)))

/-- The maximal runs of non-collapse characters of a string, in order,
skipping the collapse characters that separate them. -/
def slugGroups : List Char → List (List Char)
  | [] => []
  | c :: cs =>
    if isCollapseChar c then slugGroups cs
    else (c :: cs.takeWhile (fun d => !isCollapseChar d)) ::
      slugGroups (cs.dropWhile (fun d => !isCollapseChar d))
termination_by l => l.length
decreasing_by
  all_goals simp only [List.length_cons]
  · omega
  · have := (List.dropWhile_sublist (l := cs) (fun d => !isCollapseChar d)).length_le
    omega

/-- Join character groups with single hyphens. -/
def joinHyphen : List (List Char) → List Char
  | [] => []
  | [g] => g
  | g :: gs => g ++ '-' :: joinHyphen gs

/-- The slug contract as the specification words it: lowercase, trim,
remove every character that is not a word character, whitespace, or
hyphen, and replace the collapse-and-strip steps by their net effect:
the runs of remaining non-separator characters joined by single hyphens. -/
def slugSpec (text : String) : String :=
  String.mk (joinHyphen (slugGroups
    (((jsTrim (jsToLower text)).data).filter isSlugKeepChar)))

end EventHub

namespace EventHub

lemma collapseRuns_true (cs : List Char) :
    collapseRuns true cs = collapseRuns false (cs.dropWhile isCollapseChar) := by
  induction cs with
  | nil => rfl
  | cons c cs ih =>
    by_cases h : isCollapseChar c
    · simp [collapseRuns, h, List.dropWhile_cons, ih]
    · simp [collapseRuns, h, List.dropWhile_cons]

lemma slugGroups_dropWhile (cs : List Char) :
    slugGroups (cs.dropWhile isCollapseChar) = slugGroups cs := by
  induction cs with
  | nil => rfl
  | cons c cs ih =>
    by_cases h : isCollapseChar c
    · rw [List.dropWhile_cons_of_pos h, ih]
      simp [slugGroups, h]
    · rw [List.dropWhile_cons_of_neg (by simp [h])]

lemma collapseRuns_nonsep_append (t r : List Char)
    (ht : ∀ x ∈ t, isCollapseChar x = false) :
    collapseRuns false (t ++ r) = t ++ collapseRuns false r := by
  induction t with
  | nil => rfl
  | cons c t ih =>
    have hc : isCollapseChar c = false := ht c (List.mem_cons_self c t)
    simp [collapseRuns, hc, ih (fun x hx => ht x (List.mem_cons_of_mem _ hx))]

lemma stripTrail_eq_nil_iff (l : List Char) :
    stripTrail l = [] ↔ ∀ x ∈ l, x = '-' := by
  unfold stripTrail
  rw [List.reverse_eq_nil_iff, List.dropWhile_eq_nil_iff]
  simp

lemma stripTrail_append (l₁ l₂ : List Char) :
    stripTrail (l₁ ++ l₂) =
      if stripTrail l₂ = [] then stripTrail l₁ else l₁ ++ stripTrail l₂ := by
  unfold stripTrail
  rw [List.reverse_append, List.dropWhile_append]
  by_cases h : l₂.reverse.dropWhile (fun c => c = '-') = []
  · simp [h]
  · have : ¬ (l₂.reverse.dropWhile (fun c => c = '-')).reverse = [] := by
      simpa [List.reverse_eq_nil_iff] using h
    simp [h, this, List.isEmpty_iff, List.reverse_append]

lemma dropWhile_eq_self_of_head {p : Char → Bool} {m : List Char}
    (h : ∀ x ∈ m, p x = false) : m.dropWhile p = m := by
  cases m with
  | nil => rfl
  | cons c cs =>
    rw [List.dropWhile_cons_of_neg]
    simp [h c (List.mem_cons_self c cs)]

lemma stripTrail_of_ne (l : List Char) (h : ∀ x ∈ l, ¬ x = '-') :
    stripTrail l = l := by
  unfold stripTrail
  rw [dropWhile_eq_self_of_head, List.reverse_reverse]
  intro x hx
  simpa using h x (List.mem_reverse.mp hx)

lemma dropWhile_head_false {p : Char → Bool} {l : List Char} {c : Char}
    {cs : List Char} (h : l.dropWhile p = c :: cs) : p c = false := by
  have h2 := List.head?_dropWhile_not p l
  rw [h] at h2
  simpa using h2

lemma hyphen_isCollapseChar : isCollapseChar '-' = true := by decide

lemma ne_hyphen_of_not_collapse {c : Char} (h : isCollapseChar c = false) :
    ¬ c = '-' := by
  intro hc
  rw [hc, hyphen_isCollapseChar] at h
  exact Bool.noConfusion h

lemma joinHyphen_cons (g : List Char) (gs : List (List Char)) (h : gs ≠ []) :
    joinHyphen (g :: gs) = g ++ '-' :: joinHyphen gs := by
  cases gs with
  | nil => exact absurd rfl h
  | cons g2 gs2 => rfl

lemma stripLead_cons_of_not_collapse {c : Char} (t : List Char)
    (hc : isCollapseChar c = false) : stripLead (c :: t) = c :: t := by
  unfold stripLead
  rw [List.dropWhile_cons_of_neg (by simpa using ne_hyphen_of_not_collapse hc)]

lemma stripTrail_single_hyphen : stripTrail ['-'] = [] := by
  decide

lemma strip_collapse_eq_join_aux :
    ∀ n (l : List Char), l.length ≤ n →
      stripHyphens (collapseRuns false l) = joinHyphen (slugGroups l) := by
  intro n
  induction n with
  | zero =>
    intro l hl
    have hnil : l = [] := List.eq_nil_of_length_eq_zero (Nat.le_zero.mp hl)
    subst hnil
    simp [collapseRuns, slugGroups, joinHyphen, stripHyphens, stripLead, stripTrail]
  | succ n ih =>
    intro l hl
    match l with
    | [] =>
      simp [collapseRuns, slugGroups, joinHyphen, stripHyphens, stripLead, stripTrail]
    | c :: cs =>
      have hcs : cs.length ≤ n := by
        simp only [List.length_cons] at hl
        omega
      by_cases hc : isCollapseChar c
      · -- Head starts a separator run: a single hyphen is emitted and then
        -- stripped away again by the leading strip.
        have h1 : collapseRuns false (c :: cs) =
            '-' :: collapseRuns false (cs.dropWhile isCollapseChar) := by
          simp [collapseRuns, hc, collapseRuns_true]
        have h2 : stripHyphens (collapseRuns false (c :: cs)) =
            stripHyphens (collapseRuns false (cs.dropWhile isCollapseChar)) := by
          rw [h1]
          unfold stripHyphens stripLead
          rw [List.dropWhile_cons_of_pos (by simp)]
        have h3 : (cs.dropWhile isCollapseChar).length ≤ n :=
          le_trans (List.dropWhile_sublist isCollapseChar).length_le hcs
        rw [h2, ih _ h3, slugGroups_dropWhile]
        simp [slugGroups, hc]
      · -- Head starts a group: the whole group passes through both sides
        -- unchanged.
        have ht : ∀ x ∈ cs.takeWhile (fun d => !isCollapseChar d),
            isCollapseChar x = false := by
          intro x hx
          simpa using List.mem_takeWhile_imp hx
        have hsplit : cs = cs.takeWhile (fun d => !isCollapseChar d) ++
            cs.dropWhile (fun d => !isCollapseChar d) :=
          (List.takeWhile_append_dropWhile _ _).symm
        have h1 : collapseRuns false (c :: cs) =
            c :: cs.takeWhile (fun d => !isCollapseChar d) ++
              collapseRuns false (cs.dropWhile (fun d => !isCollapseChar d)) := by
          conv_lhs => rw [show collapseRuns false (c :: cs) =
            c :: collapseRuns false cs by simp [collapseRuns, hc]]
          conv_lhs => rw [hsplit]
          rw [collapseRuns_nonsep_append _ _ ht]
          rfl
        have hgroups : slugGroups (c :: cs) =
            (c :: cs.takeWhile (fun d => !isCollapseChar d)) ::
              slugGroups (cs.dropWhile (fun d => !isCollapseChar d)) := by
          simp [slugGroups, hc]
        have hgrpne : ∀ x ∈ c :: cs.takeWhile (fun d => !isCollapseChar d),
            ¬ x = '-' := by
          intro x hx
          rcases List.mem_cons.mp hx with h | h
          · exact h ▸ ne_hyphen_of_not_collapse (by simpa using hc)
          · exact ne_hyphen_of_not_collapse (ht x h)
        have hrlen : (cs.dropWhile (fun d => !isCollapseChar d)).length ≤ cs.length :=
          (List.dropWhile_sublist _).length_le
        cases hr : cs.dropWhile (fun d => !isCollapseChar d) with
        | nil =>
          rw [h1, hgroups, hr]
          show stripHyphens
            ((c :: cs.takeWhile (fun d => !isCollapseChar d)) ++ collapseRuns false []) = _
          unfold collapseRuns
          rw [List.append_nil]
          unfold stripHyphens
          rw [stripLead_cons_of_not_collapse _ (by simpa using hc)]
          rw [stripTrail_of_ne _ hgrpne]
          simp [slugGroups, joinHyphen]
        | cons d r2 =>
          have hd : isCollapseChar d = true := by
            have := dropWhile_head_false hr
            simpa using this
          have h4 : collapseRuns false (d :: r2) =
              '-' :: collapseRuns false (r2.dropWhile isCollapseChar) := by
            simp [collapseRuns, hd, collapseRuns_true]
          have hw : (r2.dropWhile isCollapseChar).length ≤ n := by
            have h5 : (d :: r2).length ≤ cs.length := hr ▸ hrlen
            simp only [List.length_cons] at h5
            have := (List.dropWhile_sublist (l := r2) isCollapseChar).length_le
            omega
          have hih := ih _ hw
          have hgr2 : slugGroups (d :: r2) = slugGroups r2 := by
            simp [slugGroups, hd]
          rw [h1, hgroups, hr, h4]
          cases hww : r2.dropWhile isCollapseChar with
          | nil =>
            -- Only separators remain after the group: the emitted hyphen is a
            -- trailing hyphen and is stripped away.
            have hg2 : slugGroups r2 = [] := by
              rw [← slugGroups_dropWhile r2, hww]
              simp [slugGroups]
            show stripHyphens
              ((c :: cs.takeWhile (fun d => !isCollapseChar d)) ++
                '-' :: collapseRuns false []) = _
            unfold collapseRuns
            unfold stripHyphens
            rw [show (c :: cs.takeWhile (fun d => !isCollapseChar d)) ++ ['-'] =
              c :: (cs.takeWhile (fun d => !isCollapseChar d) ++ ['-']) from rfl]
            rw [show stripLead (c :: (cs.takeWhile (fun d => !isCollapseChar d) ++ ['-'])) =
              c :: (cs.takeWhile (fun d => !isCollapseChar d) ++ ['-']) from
              stripLead_cons_of_not_collapse _ (by simpa using hc)]
            rw [show c :: (cs.takeWhile (fun d => !isCollapseChar d) ++ ['-']) =
              (c :: cs.takeWhile (fun d => !isCollapseChar d)) ++ ['-'] from rfl]
            rw [stripTrail_append, if_pos stripTrail_single_hyphen]
            rw [stripTrail_of_ne _ hgrpne]
            rw [hgr2, hg2]
            simp [joinHyphen]
          | cons e w2 =>
            -- A further group follows: the emitted hyphen separates the two
            -- groups and survives.
            have he : isCollapseChar e = false := dropWhile_head_false hww
            have hz : collapseRuns false (e :: w2) =
                e :: collapseRuns false w2 := by
              simp [collapseRuns, he]
            have hene : ¬ e = '-' := ne_hyphen_of_not_collapse he
            have hztrail : ¬ stripTrail (collapseRuns false (e :: w2)) = [] := by
              rw [stripTrail_eq_nil_iff]
              intro hall
              exact hene (hall e (by rw [hz]; exact List.mem_cons_self e _))
            have hglead : stripLead (collapseRuns false (e :: w2)) =
                collapseRuns false (e :: w2) := by
              rw [hz]
              exact stripLead_cons_of_not_collapse _ he
            unfold stripHyphens
            rw [show (c :: cs.takeWhile (fun d => !isCollapseChar d)) ++
              '-' :: collapseRuns false (e :: w2) =
              c :: (cs.takeWhile (fun d => !isCollapseChar d) ++
                '-' :: collapseRuns false (e :: w2)) from rfl]
            rw [show stripLead (c :: (cs.takeWhile (fun d => !isCollapseChar d) ++
              '-' :: collapseRuns false (e :: w2))) =
              c :: (cs.takeWhile (fun d => !isCollapseChar d) ++
                '-' :: collapseRuns false (e :: w2)) from
              stripLead_cons_of_not_collapse _ (by simpa using hc)]
            rw [show c :: (cs.takeWhile (fun d => !isCollapseChar d) ++
              '-' :: collapseRuns false (e :: w2)) =
              (c :: cs.takeWhile (fun d => !isCollapseChar d)) ++
                ('-' :: collapseRuns false (e :: w2)) from rfl]
            rw [stripTrail_append]
            rw [show ('-' :: collapseRuns false (e :: w2)) =
              ['-'] ++ collapseRuns false (e :: w2) from rfl]
            rw [stripTrail_append, if_neg hztrail]
            rw [if_neg (by simp)]
            have hzspec : stripTrail (collapseRuns false (e :: w2)) =
                joinHyphen (slugGroups (e :: w2)) := by
              have := hww ▸ hih
              unfold stripHyphens at this
              rw [hglead] at this
              exact this
            have hgne : slugGroups (e :: w2) ≠ [] := by
              simp [slugGroups, he]
            rw [hzspec, hgr2, ← slugGroups_dropWhile r2, hww]
            rw [joinHyphen_cons _ _ hgne]
            simp

lemma strip_collapse_eq_join (l : List Char) :
    stripHyphens (collapseRuns false l) = joinHyphen (slugGroups l) :=
  strip_collapse_eq_join_aux l.length l le_rfl

/-- Claim C1: for every title string, the slug generator returns the title
lowercased and trimmed, with every character that is not a word character,
whitespace, or hyphen removed, every run of whitespace/underscore/hyphen
collapsed into a single hyphen (formalized as: the runs of remaining
non-separator characters joined by single hyphens), and leading/trailing
hyphens stripped; in particular
`generateSlug "React Conf 2024!" = "react-conf-2024"`. -/
theorem generateSlug_meets_spec :
    (∀ s : String, generateSlug s = slugSpec s) ∧
      generateSlug "React Conf 2024!" = "react-conf-2024" :=
  ⟨fun _ => congrArg String.mk (strip_collapse_eq_join _), rfl⟩

lemma char_toNat_ofNat_valid {n : Nat} (h : n.isValidChar) :
    (Char.ofNat n).toNat = n := by
  rw [Char.ofNat, dif_pos h]
  simp [Char.ofNatAux, Char.toNat, UInt32.toNat]

lemma toLower_toNat (c : Char) : (c.toLower).toNat =
    if 65 ≤ c.toNat ∧ c.toNat ≤ 90 then c.toNat + 32 else c.toNat := by
  show (if c.toNat ≥ 65 ∧ c.toNat ≤ 90 then Char.ofNat (c.toNat + 32) else c).toNat = _
  by_cases h : 65 ≤ c.toNat ∧ c.toNat ≤ 90
  · rw [if_pos h, if_pos h, char_toNat_ofNat_valid (Or.inl (by omega))]
  · rw [if_neg h, if_neg h]

lemma isJsWhitespace_toLower (c : Char) :
    isJsWhitespace c.toLower = isJsWhitespace c := by
  unfold isJsWhitespace
  rw [toLower_toNat]
  by_cases h : 65 ≤ c.toNat ∧ c.toNat ≤ 90
  · rw [if_pos h]
    trans false
    · simp only [Bool.or_eq_false_iff, decide_eq_false_iff_not]
      omega
    · symm
      simp only [Bool.or_eq_false_iff, decide_eq_false_iff_not]
      omega
  · rw [if_neg h]

lemma dropWhile_idem (p : Char → Bool) (m : List Char) :
    (m.dropWhile p).dropWhile p = m.dropWhile p := by
  cases h : m.dropWhile p with
  | nil => rfl
  | cons c cs =>
    rw [List.dropWhile_cons_of_neg (by simp [dropWhile_head_false h])]

lemma trimData_prefix_core (l : List Char) :
    ∃ t, trimData l ++ t = l.dropWhile isJsWhitespace := by
  obtain ⟨t, ht⟩ :=
    List.dropWhile_suffix (l := (l.dropWhile isJsWhitespace).reverse) isJsWhitespace
  refine ⟨t.reverse, ?_⟩
  have h2 := congrArg List.reverse ht
  simpa [trimData] using h2

lemma trimData_dropWhile (l : List Char) :
    (trimData l).dropWhile isJsWhitespace = trimData l := by
  obtain ⟨t, ht⟩ := trimData_prefix_core l
  cases hB : trimData l with
  | nil => rfl
  | cons b bs =>
    have hA : l.dropWhile isJsWhitespace = b :: (bs ++ t) := by
      rw [← ht, hB]
      simp
    have hwb : isJsWhitespace b = false := dropWhile_head_false hA
    rw [List.dropWhile_cons_of_neg (by simp [hwb])]

lemma trimData_idem (l : List Char) : trimData (trimData l) = trimData l := by
  rw [show trimData (trimData l) =
    (((trimData l).dropWhile isJsWhitespace).reverse.dropWhile isJsWhitespace).reverse
    from rfl]
  rw [trimData_dropWhile]
  rw [show (trimData l).reverse =
    (l.dropWhile isJsWhitespace).reverse.dropWhile isJsWhitespace from by
      simp [trimData]]
  rw [dropWhile_idem]
  simp [trimData]

lemma dropWhile_ws_map (l : List Char) :
    (l.map Char.toLower).dropWhile isJsWhitespace =
      (l.dropWhile isJsWhitespace).map Char.toLower := by
  have hp : (isJsWhitespace ∘ Char.toLower) = isJsWhitespace :=
    funext (fun c => by simp [Function.comp, isJsWhitespace_toLower])
  rw [List.dropWhile_map, hp]

lemma trimData_map_toLower (l : List Char) :
    trimData (l.map Char.toLower) = (trimData l).map Char.toLower := by
  unfold trimData
  rw [dropWhile_ws_map, ← List.map_reverse, dropWhile_ws_map, ← List.map_reverse]

lemma jsTrim_jsToLower_jsTrim (s : String) :
    jsTrim (jsToLower (jsTrim s)) = jsTrim (jsToLower s) := by
  show String.mk (trimData ((trimData s.data).map Char.toLower)) =
    String.mk (trimData (s.data.map Char.toLower))
  rw [trimData_map_toLower, trimData_idem, ← trimData_map_toLower]

lemma generateSlug_jsTrim (t : String) :
    generateSlug (jsTrim t) = generateSlug t := by
  unfold generateSlug
  rw [jsTrim_jsToLower_jsTrim]

/-- Result of parsing a date string, as the `(year, month, day)` of the UTC
day the parsed instant falls on. -/
def DateTriple := Nat × Nat × Nat

/-- Abstraction of the JavaScript `new Date(string)` parser used by
`normalizeDate`: `some (y, m, d)` when the engine parses the string to a
valid instant (whose UTC calendar day is `(y, m, d)`), `none` when it
yields an invalid date.  The engine's parsing rules are
implementation-defined, so the date normalizer is modelled relative to an
arbitrary such oracle. -/
def DateOracle := String → Option DateTriple

/-- Left-pad a numeral with zeros to the given width, as `toISOString` does
for the year, month and day fields. -/
def padZeros (width : Nat) (s : String) : String :=
  String.mk (List.replicate (width - s.length) '0') ++ s

/-- The `YYYY-MM-DD` prefix of `Date.prototype.toISOString`, i.e. the result
of `date.toISOString().split('T')[0]`. -/
def isoDateString (y m d : Nat) : String :=
  padZeros 4 (toString y) ++ "-" ++ padZeros 2 (toString m) ++ "-" ++
    padZeros 2 (toString d)

/-- `normalizeDate` from `event.model.ts`: parse the string with `new Date`;
if it parses, return the UTC day in `YYYY-MM-DD` form; if it does not
(`isNaN(date.getTime())`, the thrown error being caught locally), return
the original string trimmed.  No error escapes. -/
def normalizeDate (parse : DateOracle) (dateString : String) : String :=
  match parse dateString with
  | some (y, m, d) => isoDateString y m d
  | none => jsTrim dateString

/-- `normalizeTime` from `event.model.ts`: trim only. -/
def normalizeTime (timeString : String) : String :=
  jsTrim timeString

/-- The raw field values supplied to `Event.create`, in schema order. -/
structure EventInput where
  title : String
  description : String
  overview : String
  image : String
  venue : String
  location : String
  date : String
  time : String
  mode : String
  audience : String
  agenda : List String
  organizer : String
  tags : List String
deriving DecidableEq

/-- A stored Event document: the `_id` (modelled as `Nat`), the schema
fields, and the `createdAt` timestamp added by `timestamps: true`
(`updatedAt` is not relevant to any claim and is omitted). -/
structure EventDoc where
  id : Nat
  title : String
  slug : String
  description : String
  overview : String
  image : String
  venue : String
  location : String
  date : String
  time : String
  mode : String
  audience : String
  agenda : List String
  organizer : String
  tags : List String
  createdAt : Nat
deriving DecidableEq

/-- Mongoose document validation for `eventSchema`, which runs before the
user `pre('save')` hook: each path is checked in schema order, first the
`required` rule (which for strings and arrays demands non-emptiness, the
string paths having already been trimmed by their `trim: true` setters),
then any further validator (`enum` for `mode`; the custom non-emptiness
validators on the other paths are subsumed by the required rule).  Returns
the first failing path, or `none` when the document is valid. -/
def validateEvent (e : EventInput) : Option String :=
  if jsTrim e.title = "" then some "title"
  else if jsTrim e.description = "" then some "description"
  else if jsTrim e.overview = "" then some "overview"
  else if jsTrim e.image = "" then some "image"
  else if jsTrim e.venue = "" then some "venue"
  else if jsTrim e.location = "" then some "location"
  else if jsTrim e.date = "" then some "date"
  else if jsTrim e.time = "" then some "time"
  else if e.mode = "" then some "mode"
  else if ¬ (e.mode = "online" ∨ e.mode = "offline" ∨ e.mode = "hybrid") then
    some "mode"
  else if jsTrim e.audience = "" then some "audience"
  else if e.agenda = [] then some "agenda"
  else if jsTrim e.organizer = "" then some "organizer"
  else if e.tags = [] then some "tags"
  else none

/-- Build the in-memory document for a new Event: the `trim: true` setters
are applied to the string paths that declare them (`mode`, `agenda` and
`tags` have no setters), `slug` is not yet set (absent, modelled as `""`),
and `createdAt` is populated by `timestamps: true`. -/
def toDoc (e : EventInput) (id now : Nat) : EventDoc :=
  { id := id
    title := jsTrim e.title
    slug := ""
    description := jsTrim e.description
    overview := jsTrim e.overview
    image := jsTrim e.image
    venue := jsTrim e.venue
    location := jsTrim e.location
    date := jsTrim e.date
    time := jsTrim e.time
    mode := e.mode
    audience := jsTrim e.audience
    agenda := e.agenda
    organizer := jsTrim e.organizer
    tags := e.tags
    createdAt := now }

/-- The `eventSchema.pre('save')` hook: regenerate `slug` when `title` was
modified or `slug` is absent; renormalize `date` when modified; retrim
`time` when modified.  (The `slug` path's `trim`/`lowercase` setters are
identities on `generateSlug` output, and `date`'s `trim` setter is an
identity on `normalizeDate` output, so they are not re-applied here.) -/
def preSaveHook (parse : DateOracle)
    (modifiedTitle modifiedDate modifiedTime : Bool) (doc : EventDoc) :
    EventDoc :=
  let d1 := if modifiedTitle || doc.slug == "" then
    { doc with slug := generateSlug doc.title } else doc
  let d2 := if modifiedDate then
    { d1 with date := normalizeDate parse d1.date } else d1
  if modifiedTime then { d2 with time := normalizeTime d2.time } else d2

/-- The document a fresh `Event.create` persists: on a new document every
set path counts as modified and `slug` is absent. -/
def mkDoc (parse : DateOracle) (e : EventInput) (id now : Nat) : EventDoc :=
  preSaveHook parse true true true (toDoc e id now)

/-- Errors surfaced by `Event.create`: a ValidationError naming the failing
path, or the storage-level duplicate-key error from the unique index on
`slug`. -/
inductive CreateError where
  | validation (field : String)
  | duplicateSlug (slug : String)
deriving DecidableEq

/-- `Event.create` against a store: validate, run the pre-save hook, then
insert, the unique index on `slug` rejecting the write when some stored
event already has the same slug.  On any error the store is unchanged (the
`Except.error` result carries no new store): nothing is persisted. -/
def createEvent (parse : DateOracle) (store : List EventDoc)
    (e : EventInput) (id now : Nat) : Except CreateError (List EventDoc) :=
  match validateEvent e with
  | some field => Except.error (CreateError.validation field)
  | none =>
    let doc := mkDoc parse e id now
    if store.any (fun d => d.slug == doc.slug) then
      Except.error (CreateError.duplicateSlug doc.slug)
    else
      Except.ok (store ++ [doc])

/-- The ordering used by `Event.find().sort({createdAt: -1})`: newer
(larger `createdAt`) documents first. -/
def createdAtDesc (a b : EventDoc) : Prop :=
  b.createdAt ≤ a.createdAt

instance : DecidableRel createdAtDesc :=
  fun a b => Nat.decLe b.createdAt a.createdAt

instance : IsTotal EventDoc createdAtDesc :=
  ⟨fun a b => Nat.le_total b.createdAt a.createdAt⟩

instance : IsTrans EventDoc createdAtDesc :=
  ⟨fun _ _ _ hab hbc => le_trans hbc hab⟩

/-- `GET /events`: return status 200 and all stored events sorted by
creation time, descending. -/
def listEvents (store : List EventDoc) : Nat × List EventDoc :=
  (200, List.insertionSort createdAtDesc store)

/-- The possible outcomes of `GET /events/[slug]` (ignoring the
store-failure branches, which depend only on the external connection). -/
inductive SlugResponse where
  | ok (e : EventDoc)
  | notFound (slug : String)
  | badRequest
deriving DecidableEq

/-- HTTP status of each `GET /events/[slug]` outcome. -/
def statusOf : SlugResponse → Nat
  | SlugResponse.ok _ => 200
  | SlugResponse.notFound _ => 404
  | SlugResponse.badRequest => 400

/-- The `GET /events/[slug]` handler: reject a blank slug parameter with
400, otherwise trim and lowercase it and look up the unique event with
that exact slug (404 when absent). -/
def findBySlugHandler (store : List EventDoc) (slug : String) : SlugResponse :=
  if jsTrim slug = "" then SlugResponse.badRequest
  else
    let sanitizedSlug := jsToLower (jsTrim slug)
    match store.find? (fun e => e.slug == sanitizedSlug) with
    | some e => SlugResponse.ok e
    | none => SlugResponse.notFound sanitizedSlug

/-- A character admitted by `[^\s@]` in the email pattern: anything that is
neither whitespace nor `@`. -/
def isEmailAtomChar (c : Char) : Bool :=
  !isJsWhitespace c && !(c = '@')

/-- The `emailRegex` test from `booking.model.ts`,
`/^[^\s@]+@[^\s@]+\.[^\s@]+$/`: the string splits at its (necessarily
unique) `@` into a non-empty atom part and a non-empty atom part that
contains a `.` neither at its first nor at its last position (the
`[^\s@]+` on either side of `\.` both being non-empty). -/
def emailRegexTest (s : String) : Bool :=
  let l := s.data
  let a := l.takeWhile (fun c => !(c = '@'))
  match l.dropWhile (fun c => !(c = '@')) with
  | [] => false
  | _ :: b =>
    !a.isEmpty && a.all isEmailAtomChar &&
      !b.isEmpty && b.all isEmailAtomChar &&
      (b.drop 1).dropLast.contains '.'

/-- The raw field values supplied to `Booking.create`. -/
structure BookingInput where
  eventId : Nat
  email : String
deriving DecidableEq

/-- A stored Booking document (timestamps omitted: no claim concerns them). -/
structure BookingDoc where
  eventId : Nat
  email : String
deriving DecidableEq

/-- Errors surfaced by `Booking.create`: a ValidationError with the failing
message, or the error raised by the referential pre-save hook
(`Event with ID ... does not exist`), carrying the missing id. -/
inductive BookingError where
  | validation (message : String)
  | missingEvent (eventId : Nat)
deriving DecidableEq

/-- `Booking.create` against the event and booking stores.  The
`lowercase`/`trim` setters normalize the email on assignment; document
validation (required, then the `emailRegex` validator) runs first, before
any `pre('save')` hook; then the hook looks the referenced event up by id
and aborts the save when it does not exist; only then is the document
persisted.  On any error the booking store is unchanged: nothing is
persisted. -/
def createBooking (events : List EventDoc) (bookings : List BookingDoc)
    (b : BookingInput) : Except BookingError (List BookingDoc) :=
  let email := jsTrim (jsToLower b.email)
  if email = "" then
    Except.error (BookingError.validation "Email is required")
  else if ¬ emailRegexTest email then
    Except.error (BookingError.validation "Please provide a valid email address")
  else
    match events.find? (fun e => e.id == b.eventId) with
    | none => Except.error (BookingError.missingEvent b.eventId)
    | some _ => Except.ok (bookings ++ [{ eventId := b.eventId, email := email }])

/-- A date oracle for concrete runs: parses nothing (every claim-relevant
concrete date below is exercised through explicit oracles where needed). -/
def oracle0 : DateOracle := fun _ => none

/-- A fully valid concrete event input used by concrete scenarios. -/
def sampleInput : EventInput :=
  { title := "React Conf 2024!"
    description := "A conference"
    overview := "Talks"
    image := "img.png"
    venue := "Hall 1"
    location := "Las Vegas"
    date := "2024-10-15"
    time := "9:00 AM"
    mode := "online"
    audience := "Developers"
    agenda := ["Keynote"]
    organizer := "Meta"
    tags := ["react"] }

/-- `sampleInput` with another title. -/
def inputWithTitle (t : String) : EventInput :=
  { sampleInput with title := t }

/-- Claim C5: for every date string, if the oracle parses it the normalizer
returns the canonical `YYYY-MM-DD` form of the parsed day; if it does not
parse, the normalizer returns the trimmed original string unchanged and no
error surfaces; time strings are only trimmed. -/
theorem normalizeDate_contract (parse : DateOracle) (s : String) :
    (∀ y m d, parse s = some (y, m, d) →
      normalizeDate parse s = isoDateString y m d) ∧
    (parse s = none → normalizeDate parse s = jsTrim s) ∧
    normalizeTime s = jsTrim s := by
  refine ⟨?_, ?_, rfl⟩
  · intro y m d h
    simp [normalizeDate, h]
  · intro h
    simp [normalizeDate, h]

/-- Concrete instance of `normalizeDate_contract`. -/
theorem normalizeDate_contract_instance :
    normalizeDate (fun _ => some (2024, 10, 15)) "Oct 15, 2024" = "2024-10-15" ∧
    normalizeDate oracle0 " not a date " = "not a date" ∧
    normalizeTime " 9:00 AM " = "9:00 AM" := by
  refine ⟨?_, ?_, ?_⟩
  · rw [(normalizeDate_contract (fun _ => some (2024, 10, 15))
      "Oct 15, 2024").1 2024 10 15 rfl]
    decide
  · rw [(normalizeDate_contract oracle0 " not a date ").2.1 rfl]
    decide
  · rw [(normalizeDate_contract oracle0 " 9:00 AM ").2.2]
    decide

/-- Claim C8: on every save, the hook regenerates `slug` from `title` via
the slug generator when the title changed or the slug is absent, keeps it
otherwise; renormalizes `date` exactly when it changed; retrims `time`
exactly when it changed; and never touches any other field. -/
theorem preSaveHook_triggers (parse : DateOracle)
    (mt md mtm : Bool) (doc : EventDoc) :
    ((mt = true ∨ doc.slug = "") →
      (preSaveHook parse mt md mtm doc).slug = generateSlug doc.title) ∧
    (mt = false → doc.slug ≠ "" →
      (preSaveHook parse mt md mtm doc).slug = doc.slug) ∧
    (md = true →
      (preSaveHook parse mt md mtm doc).date = normalizeDate parse doc.date) ∧
    (md = false → (preSaveHook parse mt md mtm doc).date = doc.date) ∧
    (mtm = true →
      (preSaveHook parse mt md mtm doc).time = normalizeTime doc.time) ∧
    (mtm = false → (preSaveHook parse mt md mtm doc).time = doc.time) ∧
    (preSaveHook parse mt md mtm doc).title = doc.title ∧
    (preSaveHook parse mt md mtm doc).description = doc.description ∧
    (preSaveHook parse mt md mtm doc).overview = doc.overview ∧
    (preSaveHook parse mt md mtm doc).image = doc.image ∧
    (preSaveHook parse mt md mtm doc).venue = doc.venue ∧
    (preSaveHook parse mt md mtm doc).location = doc.location ∧
    (preSaveHook parse mt md mtm doc).mode = doc.mode ∧
    (preSaveHook parse mt md mtm doc).audience = doc.audience ∧
    (preSaveHook parse mt md mtm doc).agenda = doc.agenda ∧
    (preSaveHook parse mt md mtm doc).organizer = doc.organizer ∧
    (preSaveHook parse mt md mtm doc).tags = doc.tags ∧
    (preSaveHook parse mt md mtm doc).createdAt = doc.createdAt ∧
    (preSaveHook parse mt md mtm doc).id = doc.id := by
  cases mt <;> cases md <;> cases mtm <;>
    by_cases hs : doc.slug = "" <;>
      simp [preSaveHook, hs]

/-- Concrete instance of `preSaveHook_triggers`: a save that modified
nothing on a document with a slug leaves slug, date and time unchanged. -/
theorem preSaveHook_triggers_instance :
    (preSaveHook oracle0 false false false (mkDoc oracle0 sampleInput 1 10)).slug
        = (mkDoc oracle0 sampleInput 1 10).slug ∧
    (preSaveHook oracle0 false false false (mkDoc oracle0 sampleInput 1 10)).date
        = (mkDoc oracle0 sampleInput 1 10).date ∧
    (preSaveHook oracle0 false false false (mkDoc oracle0 sampleInput 1 10)).time
        = (mkDoc oracle0 sampleInput 1 10).time := by
  have h := preSaveHook_triggers oracle0 false false false
    (mkDoc oracle0 sampleInput 1 10)
  exact ⟨h.2.1 rfl (by decide), h.2.2.2.1 rfl, h.2.2.2.2.2.1 rfl⟩

lemma ite_some_none_iff {c : Prop} [Decidable c] {f : String}
    {rest : Option String} :
    (if c then some f else rest) = none ↔ ¬ c ∧ rest = none := by
  by_cases h : c <;> simp [h]

/-- Claim C7: event creation validates that every required field is
non-empty (after trimming), that `agenda` and `tags` are non-empty arrays,
and that `mode` is one of online/offline/hybrid; when validation fails,
`create` fails with a ValidationError carrying the first failing field in
schema order (the field `validateEvent` returns), and nothing is
persisted; when validation passes, `create` never fails with a
ValidationError. -/
theorem eventCreate_validation (parse : DateOracle) (store : List EventDoc)
    (e : EventInput) (id now : Nat) :
    (validateEvent e = none ↔
      (jsTrim e.title ≠ "" ∧ jsTrim e.description ≠ "" ∧
       jsTrim e.overview ≠ "" ∧ jsTrim e.image ≠ "" ∧ jsTrim e.venue ≠ "" ∧
       jsTrim e.location ≠ "" ∧ jsTrim e.date ≠ "" ∧ jsTrim e.time ≠ "" ∧
       (e.mode = "online" ∨ e.mode = "offline" ∨ e.mode = "hybrid") ∧
       jsTrim e.audience ≠ "" ∧ e.agenda ≠ [] ∧ jsTrim e.organizer ≠ "" ∧
       e.tags ≠ [])) ∧
    (∀ f, validateEvent e = some f →
      createEvent parse store e id now =
        Except.error (CreateError.validation f)) ∧
    (validateEvent e = none → ∀ f,
      createEvent parse store e id now ≠
        Except.error (CreateError.validation f)) := by
  refine ⟨?_, ?_, ?_⟩
  · unfold validateEvent
    simp only [ite_some_none_iff, not_not]
    constructor
    · rintro ⟨ht, hd, ho, hi, hv, hl, hda, hti, hm0, hme, hau, hag, hor, htg, -⟩
      exact ⟨ht, hd, ho, hi, hv, hl, hda, hti, hme, hau, hag, hor, htg⟩
    · rintro ⟨ht, hd, ho, hi, hv, hl, hda, hti, hme, hau, hag, hor, htg⟩
      refine ⟨ht, hd, ho, hi, hv, hl, hda, hti, ?_, hme, hau, hag, hor, htg,
        trivial⟩
      rcases hme with h | h | h <;> rw [h] <;> decide
  · intro f hf
    unfold createEvent
    rw [hf]
  · intro hnone f
    unfold createEvent
    rw [hnone]
    dsimp only
    split <;> simp

/-- Concrete instance of `eventCreate_validation`: an input with an empty
agenda fails creation with a ValidationError naming `agenda`, and
`sampleInput` passes validation. -/
theorem eventCreate_validation_instance :
    createEvent oracle0 [] { sampleInput with agenda := [] } 1 10 =
      Except.error (CreateError.validation "agenda") ∧
    (jsTrim sampleInput.title ≠ "" ∧ jsTrim sampleInput.description ≠ "" ∧
     jsTrim sampleInput.overview ≠ "" ∧ jsTrim sampleInput.image ≠ "" ∧
     jsTrim sampleInput.venue ≠ "" ∧ jsTrim sampleInput.location ≠ "" ∧
     jsTrim sampleInput.date ≠ "" ∧ jsTrim sampleInput.time ≠ "" ∧
     (sampleInput.mode = "online" ∨ sampleInput.mode = "offline" ∨
       sampleInput.mode = "hybrid") ∧
     jsTrim sampleInput.audience ≠ "" ∧ sampleInput.agenda ≠ [] ∧
     jsTrim sampleInput.organizer ≠ "" ∧ sampleInput.tags ≠ []) := by
  constructor
  · exact (eventCreate_validation oracle0 [] _ 1 10).2.1 "agenda" (by decide)
  · exact (eventCreate_validation oracle0 [] sampleInput 1 10).1.mp (by decide)

lemma mkDoc_slug (parse : DateOracle) (e : EventInput) (id now : Nat) :
    (mkDoc parse e id now).slug = generateSlug e.title := by
  unfold mkDoc preSaveHook toDoc
  simp [generateSlug_jsTrim]

lemma mkDoc_createdAt (parse : DateOracle) (e : EventInput) (id now : Nat) :
    (mkDoc parse e id now).createdAt = now := by
  unfold mkDoc preSaveHook toDoc
  simp

/-- Claim C3: when two event inputs have titles normalizing to the same
slug, the first create into an empty store succeeds, storing exactly the
generator's output as the slug (no disambiguation suffix of any kind), and
the second create fails with the unique-index duplicate-slug error. -/
theorem duplicate_slug_collision (parse : DateOracle) (e1 e2 : EventInput)
    (id1 id2 t1 t2 : Nat)
    (hv1 : validateEvent e1 = none) (hv2 : validateEvent e2 = none)
    (hslug : generateSlug e1.title = generateSlug e2.title) :
    createEvent parse [] e1 id1 t1 = Except.ok [mkDoc parse e1 id1 t1] ∧
    (mkDoc parse e1 id1 t1).slug = generateSlug e1.title ∧
    createEvent parse [mkDoc parse e1 id1 t1] e2 id2 t2 =
      Except.error (CreateError.duplicateSlug (generateSlug e2.title)) := by
  refine ⟨?_, mkDoc_slug parse e1 id1 t1, ?_⟩
  · unfold createEvent
    rw [hv1]
    simp
  · unfold createEvent
    rw [hv2]
    dsimp only
    rw [if_pos]
    · rw [mkDoc_slug]
    · simp [mkDoc_slug, hslug]

/-- Concrete instance of `duplicate_slug_collision`: two different titles
normalizing to `react-conf-2024`. -/
theorem duplicate_slug_collision_instance :
    createEvent oracle0 [] sampleInput 1 10 =
      Except.ok [mkDoc oracle0 sampleInput 1 10] ∧
    (mkDoc oracle0 sampleInput 1 10).slug = generateSlug sampleInput.title ∧
    createEvent oracle0 [mkDoc oracle0 sampleInput 1 10]
        (inputWithTitle "React   Conf   2024") 2 20 =
      Except.error (CreateError.duplicateSlug
        (generateSlug (inputWithTitle "React   Conf   2024").title)) :=
  duplicate_slug_collision oracle0 sampleInput
    (inputWithTitle "React   Conf   2024") 1 2 10 20
    (by decide) (by decide) (by decide)

/-- `sampleInput` with a title made only of characters the slug generator
deletes. -/
def bangInput : EventInput := inputWithTitle "!!!"

/-- A second such input with a different title. -/
def qmarkInput : EventInput := inputWithTitle "???"

/-- Claim C10: a non-empty title with no word characters passes the
non-empty title validation, yet its slug is the empty string, so the event
is stored with an empty slug, and a second such event with a different
title collides on the unique slug index. -/
theorem empty_slug_collision :
    bangInput.title ≠ "" ∧
    validateEvent bangInput = none ∧
    generateSlug bangInput.title = "" ∧
    createEvent oracle0 [] bangInput 1 10 =
      Except.ok [mkDoc oracle0 bangInput 1 10] ∧
    (mkDoc oracle0 bangInput 1 10).slug = "" ∧
    qmarkInput.title ≠ bangInput.title ∧
    createEvent oracle0 [mkDoc oracle0 bangInput 1 10] qmarkInput 2 20 =
      Except.error (CreateError.duplicateSlug "") := by
  refine ⟨by decide, by decide, by decide, rfl, by decide, by decide, rfl⟩

/-- The three documents of the `GET /events` concrete scenario, created in
sequence at increasing timestamps. -/
def alphaDoc : EventDoc := mkDoc oracle0 (inputWithTitle "Alpha") 1 10

/-- Second document of the scenario. -/
def betaDoc : EventDoc := mkDoc oracle0 (inputWithTitle "Beta") 2 20

/-- Third (newest) document of the scenario. -/
def gammaDoc : EventDoc := mkDoc oracle0 (inputWithTitle "Gamma") 3 30

/-- Claim C9: `GET /events` returns status 200 and all stored events (a
permutation of the store) sorted by creation time, descending; in
particular, after creating three events in sequence, listing returns them
newest-created first. -/
theorem listEvents_newest_first :
    (∀ store : List EventDoc,
      (listEvents store).1 = 200 ∧
      (listEvents store).2.Perm store ∧
      (listEvents store).2.Sorted createdAtDesc) ∧
    (createEvent oracle0 [] (inputWithTitle "Alpha") 1 10 =
        Except.ok [alphaDoc] ∧
      createEvent oracle0 [alphaDoc] (inputWithTitle "Beta") 2 20 =
        Except.ok [alphaDoc, betaDoc] ∧
      createEvent oracle0 [alphaDoc, betaDoc] (inputWithTitle "Gamma") 3 30 =
        Except.ok [alphaDoc, betaDoc, gammaDoc] ∧
      alphaDoc.createdAt = 10 ∧ betaDoc.createdAt = 20 ∧
      gammaDoc.createdAt = 30 ∧
      listEvents [alphaDoc, betaDoc, gammaDoc] =
        (200, [gammaDoc, betaDoc, alphaDoc])) := by
  constructor
  · intro store
    exact ⟨rfl, List.perm_insertionSort createdAtDesc store,
      List.sorted_insertionSort createdAtDesc store⟩
  · exact ⟨rfl, rfl, rfl, rfl, rfl, rfl, rfl⟩

lemma find_slug_unique (store : List EventDoc) (e : EventDoc)
    (he : e ∈ store) (hu : store.Pairwise (fun a b => a.slug ≠ b.slug)) :
    store.find? (fun x => x.slug == e.slug) = some e := by
  induction store with
  | nil => cases he
  | cons x xs ih =>
    rcases List.mem_cons.mp he with rfl | hm
    · rw [List.find?_cons_of_pos _ (by simp)]
    · have hne : x.slug ≠ e.slug := (List.pairwise_cons.mp hu).1 e hm
      rw [List.find?_cons_of_neg _ (by simp [hne])]
      exact ih hm (List.pairwise_cons.mp hu).2

/-- Claim C4 (amended): for stores whose slugs are pairwise distinct (the
unique-index invariant), and query slugs that are non-blank after
trimming, `GET /events/[slug]` performs a case-insensitive trimmed exact
match, returning the matching event with 200, and a 404 NotFound response
(not a thrown error) when no event matches; a query that is blank after
trimming is instead rejected with 400. -/
theorem findBySlug_normalized_match (store : List EventDoc)
    (hu : store.Pairwise (fun a b => a.slug ≠ b.slug)) :
    (∀ q e, jsTrim q ≠ "" → e ∈ store → jsToLower (jsTrim q) = e.slug →
      findBySlugHandler store q = SlugResponse.ok e ∧
      statusOf (findBySlugHandler store q) = 200) ∧
    (∀ q, jsTrim q ≠ "" → (∀ e ∈ store, e.slug ≠ jsToLower (jsTrim q)) →
      findBySlugHandler store q =
        SlugResponse.notFound (jsToLower (jsTrim q)) ∧
      statusOf (findBySlugHandler store q) = 404) ∧
    (∀ q, jsTrim q = "" →
      findBySlugHandler store q = SlugResponse.badRequest ∧
      statusOf (findBySlugHandler store q) = 400) := by
  refine ⟨?_, ?_, ?_⟩
  · intro q e hq he hmatch
    have h1 : findBySlugHandler store q = SlugResponse.ok e := by
      unfold findBySlugHandler
      rw [if_neg hq]
      dsimp only
      rw [hmatch, find_slug_unique store e he hu]
    exact ⟨h1, by rw [h1]; rfl⟩
  · intro q hq habs
    have h1 : findBySlugHandler store q =
        SlugResponse.notFound (jsToLower (jsTrim q)) := by
      unfold findBySlugHandler
      rw [if_neg hq]
      dsimp only
      rw [List.find?_eq_none.mpr (by
        intro x hx
        simp [habs x hx])]
    exact ⟨h1, by rw [h1]; rfl⟩
  · intro q hq
    have h1 : findBySlugHandler store q = SlugResponse.badRequest := by
      unfold findBySlugHandler
      rw [if_pos hq]
    exact ⟨h1, by rw [h1]; rfl⟩

/-- Concrete instance of `findBySlug_normalized_match`: the spec's example
query `"REACT-CONF-2024 "` matches the event stored with slug
`react-conf-2024`, and an unmatched slug yields 404. -/
theorem findBySlug_normalized_match_instance :
    findBySlugHandler [mkDoc oracle0 sampleInput 1 10] "REACT-CONF-2024 " =
      SlugResponse.ok (mkDoc oracle0 sampleInput 1 10) ∧
    statusOf (findBySlugHandler [mkDoc oracle0 sampleInput 1 10]
      "REACT-CONF-2024 ") = 200 ∧
    findBySlugHandler [mkDoc oracle0 sampleInput 1 10] "no-such-slug" =
      SlugResponse.notFound "no-such-slug" ∧
    statusOf (findBySlugHandler [mkDoc oracle0 sampleInput 1 10]
      "no-such-slug") = 404 := by
  have h := findBySlug_normalized_match [mkDoc oracle0 sampleInput 1 10]
    (by simp)
  obtain ⟨hok, hnf, -⟩ := h
  have h200 := hok "REACT-CONF-2024 " (mkDoc oracle0 sampleInput 1 10)
    (by decide) (List.mem_cons_self _ _) (by decide)
  have h404 := hnf "no-such-slug" (by decide) (by decide)
  exact ⟨h200.1, h200.2, by
    have := h404.1
    simpa using this, by
    have := h404.2
    simpa using this⟩

/-- Claim C4 as frozen is falsified by a reachable store: an event created
with title `"!!!"` is stored with slug `""`; the query `" "` trims and
lowercases to `""`, equal to that stored slug, yet the handler answers
400 badRequest, not 200 with the event. -/
theorem findBySlug_blank_slug_cex :
    createEvent oracle0 [] bangInput 1 10 =
      Except.ok [mkDoc oracle0 bangInput 1 10] ∧
    jsToLower (jsTrim " ") = (mkDoc oracle0 bangInput 1 10).slug ∧
    findBySlugHandler [mkDoc oracle0 bangInput 1 10] " " =
      SlugResponse.badRequest ∧
    statusOf (findBySlugHandler [mkDoc oracle0 bangInput 1 10] " ") = 400 ∧
    findBySlugHandler [mkDoc oracle0 bangInput 1 10] " " ≠
      SlugResponse.ok (mkDoc oracle0 bangInput 1 10) := by
  refine ⟨rfl, by decide, rfl, rfl, by decide⟩

/-- A concrete stored event with id 7, the referent of booking scenarios. -/
def sampleEventDoc : EventDoc := mkDoc oracle0 sampleInput 7 10

/-- Claim C2 (amended): for every booking create whose normalized email
passes validation, when the `eventId` does not refer to a stored event the
save fails with the pre-save hook's error naming the missing event and no
booking is persisted, and when the event exists the booking is persisted. -/
theorem booking_referential_check (events : List EventDoc)
    (bookings : List BookingDoc) (b : BookingInput)
    (hmail : emailRegexTest (jsTrim (jsToLower b.email)) = true) :
    (events.find? (fun e => e.id == b.eventId) = none →
      createBooking events bookings b =
        Except.error (BookingError.missingEvent b.eventId)) ∧
    (∀ e, events.find? (fun e => e.id == b.eventId) = some e →
      createBooking events bookings b =
        Except.ok (bookings ++
          [⟨b.eventId, jsTrim (jsToLower b.email)⟩])) := by
  have hne : jsTrim (jsToLower b.email) ≠ "" := by
    intro h
    rw [h] at hmail
    exact absurd hmail (by decide)
  constructor
  · intro habs
    unfold createBooking
    rw [if_neg hne, if_neg (not_not_intro hmail), habs]
  · intro e hfind
    unfold createBooking
    rw [if_neg hne, if_neg (not_not_intro hmail), hfind]

/-- Concrete instance of `booking_referential_check`: with only the event
with id 7 stored, a booking for id 99 fails with the missing-event error
and a booking for id 7 is persisted (with normalized email). -/
theorem booking_referential_check_instance :
    createBooking [sampleEventDoc] []
      { eventId := 99, email := "USER@Example.com" } =
      Except.error (BookingError.missingEvent 99) ∧
    createBooking [sampleEventDoc] []
      { eventId := 7, email := "USER@Example.com" } =
      Except.ok [{ eventId := 7, email := "user@example.com" }] := by
  constructor
  · exact (booking_referential_check [sampleEventDoc] []
      { eventId := 99, email := "USER@Example.com" } (by decide)).1 (by decide)
  · have h := (booking_referential_check [sampleEventDoc] []
      { eventId := 7, email := "USER@Example.com" } (by decide)).2
      sampleEventDoc (by decide)
    rw [h]
    rfl

/-- Claim C2 as frozen is falsified when the email fails validation: the
event with id 7 exists in the store, yet the booking is not persisted —
the create fails with the email ValidationError (document validation runs
before the referential pre-save hook), and likewise a create with a
missing event and an invalid email fails with the ValidationError, not an
error stating the event does not exist. -/
theorem booking_persist_invalid_email_cex :
    List.find? (fun e => e.id == (7 : Nat)) [sampleEventDoc] =
      some sampleEventDoc ∧
    createBooking [sampleEventDoc] []
      { eventId := 7, email := "not an email" } =
      Except.error
        (BookingError.validation "Please provide a valid email address") ∧
    (createBooking [sampleEventDoc] []
      { eventId := 7, email := "not an email" }).toOption = none ∧
    createBooking [] [] { eventId := 99, email := "not an email" } =
      Except.error
        (BookingError.validation "Please provide a valid email address") := by
  refine ⟨by decide, rfl, rfl, rfl⟩

/-- Claim C6: booking creation validates the email against the standard
pattern — a normalized email failing the pattern yields a
ValidationError — and every persisted booking stores the email trimmed
and lowercased; in particular creating a booking with email
`"USER@Example.com"` persists `"user@example.com"`. -/
theorem booking_email_validation (events : List EventDoc)
    (bookings : List BookingDoc) (b : BookingInput) :
    (emailRegexTest (jsTrim (jsToLower b.email)) = false →
      ∃ msg, createBooking events bookings b =
        Except.error (BookingError.validation msg)) ∧
    (∀ bs, createBooking events bookings b = Except.ok bs →
      bs = bookings ++ [⟨b.eventId, jsTrim (jsToLower b.email)⟩]) ∧
    createBooking [sampleEventDoc] []
      { eventId := 7, email := "USER@Example.com" } =
      Except.ok [{ eventId := 7, email := "user@example.com" }] := by
  refine ⟨?_, ?_, rfl⟩
  · intro hfail
    unfold createBooking
    by_cases hne : jsTrim (jsToLower b.email) = ""
    · rw [if_pos hne]
      exact ⟨"Email is required", rfl⟩
    · rw [if_neg hne, if_pos (by simp [hfail])]
      exact ⟨"Please provide a valid email address", rfl⟩
  · intro bs hbs
    unfold createBooking at hbs
    by_cases hne : jsTrim (jsToLower b.email) = ""
    · rw [if_pos hne] at hbs
      cases hbs
    · rw [if_neg hne] at hbs
      by_cases hre : emailRegexTest (jsTrim (jsToLower b.email)) = true
      · rw [if_neg (not_not_intro hre)] at hbs
        cases hfind : events.find? (fun e => e.id == b.eventId) with
        | none =>
          rw [hfind] at hbs
          cases hbs
        | some e =>
          rw [hfind] at hbs
          injection hbs with h
          exact h.symm
      · rw [if_pos (by simpa using hre)] at hbs
        cases hbs

/-- Concrete instance of `booking_email_validation`: the stored list of a
successful create is the input list extended by the normalized-email
booking. -/
theorem booking_email_validation_instance :
    [({ eventId := 7, email := "user@example.com" } : BookingDoc)] =
      [] ++ [⟨7, jsTrim (jsToLower "USER@Example.com")⟩] :=
  (booking_email_validation [sampleEventDoc] []
    { eventId := 7, email := "USER@Example.com" }).2.1
    [{ eventId := 7, email := "user@example.com" }] rfl
